import Mathlib

/-!
Verification development for the time-series alignment and correlation core
of the prometheus-energy-analysis repository.

The Python source (src/sync_metrics.py, src/correlations.py,
src/rolling_stats.py) is shallowly embedded here:

* instants (pandas datetimes) are modelled as rational numbers of seconds;
* finite float values are modelled as rationals; a missing value (NaN) is
  modelled as `Option.none`;
* a Pearson correlation coefficient r = N / sqrt(D) is represented by the
  rational pair (N, D) with N = sum (x-mean x)*(y-mean y) and
  D = (sum (x-mean x)^2) * (sum (y-mean y)^2), avoiding irrational square
  roots; comparisons of |r| are performed on N^2 / D, which is a faithful
  encoding because D > 0 for every defined coefficient;
* fallible code (scipy raising ValueError) returns Except.
-/

namespace PromCore

/-! ### Generic list and rational helpers -/

/-- Sum of a list of rationals. -/
def qsum (l : List ℚ) : ℚ := l.foldr (· + ·) 0

/-- Arithmetic mean of a list of rationals (0 on the empty list; every use
below is guarded by a nonemptiness check, mirroring pandas/numpy). -/
def qmean (l : List ℚ) : ℚ := qsum l / (l.length : ℚ)

/-- Insert an element into a list sorted by the rational key, keeping the
list sorted (used to model pandas sort_values). -/
def insertOn {α : Type} (key : α → ℚ) (a : α) : List α → List α
  | [] => [a]
  | b :: bs => if key a ≤ key b then a :: b :: bs else b :: insertOn key a bs

/-- Sort a list by a rational key (insertion sort, models pandas
sort_values on the datetime column). -/
def sortOn {α : Type} (key : α → ℚ) : List α → List α
  | [] => []
  | a :: as => insertOn key a (sortOn key as)

/-- Adjacent pairs of a list: (l[0],l[1]), (l[1],l[2]), ... Models the
row pairs that pandas diff subtracts. -/
def adjPairs {α : Type} (l : List α) : List (α × α) := l.zip l.tail

theorem insertOn_length {α : Type} (key : α → ℚ) (a : α) (l : List α) :
    (insertOn key a l).length = l.length + 1 := by
  induction l with
  | nil => rfl
  | cons b bs ih =>
    simp only [insertOn]
    split <;> simp [ih]

theorem sortOn_length {α : Type} (key : α → ℚ) (l : List α) :
    (sortOn key l).length = l.length := by
  induction l with
  | nil => rfl
  | cons a as ih => simp [sortOn, insertOn_length, ih]

theorem sortOn_eq_self {α : Type} (key : α → ℚ) (l : List α)
    (h : l.Chain' (fun a b => key a ≤ key b)) : sortOn key l = l := by
  induction l with
  | nil => rfl
  | cons a as ih =>
    have htail : as.Chain' (fun a b => key a ≤ key b) := h.tail
    rw [sortOn, ih htail]
    cases as with
    | nil => rfl
    | cons b bs =>
      have hab : key a ≤ key b := List.chain'_cons.mp h |>.1
      simp [insertOn, hab]

/-- Chain' on a list yields the relation on all adjacent pairs. -/
theorem chain'_adjPairs {α : Type} {R : α → α → Prop} {l : List α}
    (h : l.Chain' R) : ∀ p ∈ adjPairs l, R p.1 p.2 := by
  induction l with
  | nil => intro p hp; simp [adjPairs] at hp
  | cons a as ih =>
    intro p hp
    cases as with
    | nil => simp [adjPairs] at hp
    | cons b bs =>
      rcases List.chain'_cons.mp h with ⟨hab, htail⟩
      simp only [adjPairs, List.tail_cons, List.zip_cons_cons, List.mem_cons] at hp
      rcases hp with rfl | hp
      · exact hab
      · exact ih htail p hp

/-! ### String helpers (model Python lowercase substring / suffix tests) -/

/-- Does the first character list start with the second one. -/
def startsWithL : List Char → List Char → Bool
  | _, [] => true
  | [], _ :: _ => false
  | a :: as, b :: bs => a == b && startsWithL as bs

/-- Does the first character list contain the second as a contiguous
substring (Python in operator on strings; the empty pattern matches). -/
def hasSubL : List Char → List Char → Bool
  | [], pat => pat.isEmpty
  | a :: as, pat => startsWithL (a :: as) pat || hasSubL as pat

/-! ### sync_metrics.py -/

/-- Lowercased character list of a string (metric_name.lower(); metric
names are ASCII, where Char.toLower agrees with Python str.lower). -/
def lowerChars (s : String) : List Char := s.data.map Char.toLower

/-- Name-based cumulative marker test from _is_cumulative:
"cumulative" in name_lower or "_total" in name_lower or
name_lower.endswith("_total"). -/
def nameHasMarker (name : String) : Bool :=
  let lo := lowerChars name
  hasSubL lo "cumulative".data || hasSubL lo "_total".data ||
    startsWithL lo.reverse "_total".data.reverse

/-- Successive differences of the value column after sorting by datetime
(the defined entries of pandas sorted_df["value"].diff(); the leading NaN
is not represented but is counted by len(diffs) in the classifier). -/
def valueDiffs (rows : List (ℚ × ℚ)) : List ℚ :=
  (adjPairs (sortOn (fun r => r.1) rows)).map (fun p => p.2.2 - p.1.2)

/-- Count of non-negative successive differences ((diffs >= 0).sum();
NaN >= 0 is false so the leading NaN contributes nothing). -/
def nonNegDiffCount (rows : List (ℚ × ℚ)) : ℕ :=
  (valueDiffs rows).countP (fun d => decide (0 ≤ d))

/-- Embeds _is_cumulative(df, metric_name). A row is an (instant, value)
pair. The denominator of the behavioral test is len(diffs) = len(df)
because pandas diff keeps a leading NaN entry; 0.95 is modelled as the
exact rational 19/20. -/
def is_cumulative (rows : List (ℚ × ℚ)) (name : String) : Bool :=
  if nameHasMarker name then true
  else if rows.length < 2 then false
  else decide ((19 : ℚ) / 20 < (nonNegDiffCount rows : ℚ) / (rows.length : ℚ))

/-- Embeds to_rate(df, metric_name): for a cumulative series, sort by
datetime and replace each value by the per-second rate against the
previous row, clamping negative rates to 0; the first row (undefined
diff) is dropped by dropna. Rows with a zero time step are modelled as
dropped (Python produces a non-finite rate there; the data model treats
non-finite values as absent, and no duplicate instants survive upstream
aggregation). -/
def to_rate (rows : List (ℚ × ℚ)) (name : String) : List (ℚ × ℚ) :=
  if rows.length < 2 then rows
  else if ¬ is_cumulative rows name then rows
  else
    (adjPairs (sortOn (fun r => r.1) rows)).filterMap (fun p =>
      let dt := p.2.1 - p.1.1
      if dt = 0 then none
      else
        let rate := (p.2.2 - p.1.2) / dt
        some (p.2.1, if rate < 0 then 0 else rate))

/-- Median of a list of rationals (0 on the empty list; guarded by
callers). Models pandas Series.median: sort, middle element for odd
length, mean of the two middles for even length. -/
def medianQ (l : List ℚ) : ℚ :=
  let s := sortOn id l
  let n := s.length
  if n = 0 then 0
  else if n % 2 = 1 then s.getD (n / 2) 0
  else (s.getD (n / 2 - 1) 0 + s.getD (n / 2) 0) / 2

/-- Median successive gap of a list of instants, in seconds:
df["datetime"].diff().median().total_seconds(). None models NaN (fewer
than 2 samples: pandas median of an all-NaT column is NaT). -/
def medianGapQ (ts : List ℚ) : Option ℚ :=
  let gaps := (adjPairs ts).map (fun p => p.2 - p.1)
  if gaps.isEmpty then none else some (medianQ gaps)

/-- Python builtin min(a, b) on floats where None models NaN: min
compares b < a, and every comparison with NaN is false, so
min(nan, x) = nan but min(x, nan) = x. -/
def pyMinQ : Option ℚ → Option ℚ → Option ℚ
  | none, _ => none
  | some a, none => some a
  | some a, some b => some (if b < a then b else a)

/-- Quantization chain of infer_freq. None models NaN, which fails every
comparison and falls through to the final else branch. -/
def quantizeFreq : Option ℚ → String
  | none => "1min"
  | some fs =>
    if fs < 5 then "5s"
    else if fs < 30 then "30s"
    else if fs < 60 then "1min"
    else "1min"

/-- Embeds infer_freq(df1, df2); the inputs are the two datetime columns
in seconds. -/
def infer_freq (ts1 ts2 : List ℚ) : String :=
  if ts1.isEmpty || ts2.isEmpty then "1s"
  else quantizeFreq (pyMinQ (medianGapQ ts1) (medianGapQ ts2))

/-- Seconds denoted by the frequency strings infer_freq can produce
(pd.Timedelta parsing restricted to those strings; other strings map to
0 and never arise). -/
def freqSeconds (s : String) : ℚ :=
  if s = "1s" then 1
  else if s = "5s" then 5
  else if s = "30s" then 30
  else if s = "1min" then 60
  else 0

/-- Contiguous run of bucket indices from bmin to bmax inclusive. -/
def bucketGrid (bmin bmax : ℤ) : List ℤ :=
  (List.range (bmax - bmin + 1).toNat).map (fun i : ℕ => bmin + (i : ℤ))

/-- Resample a series onto a fixed grid of cadence f seconds with mean
aggregation: df.set_index("datetime").resample(freq).mean().reset_index().
Buckets run contiguously from the first occupied bucket to the last; an
empty bucket carries NaN (none). Bucket edges are floor(t / f) * f, which
matches the pandas origin for the sub-day frequencies infer_freq
produces. -/
def resampleMean (f : ℚ) (df : List (ℚ × ℚ)) : List (ℚ × Option ℚ) :=
  let buckets := df.map (fun r => (⌊r.1 / f⌋, r.2))
  match buckets.map (fun b => b.1) with
  | [] => []
  | b0 :: rest =>
    (bucketGrid (rest.foldl min b0) (rest.foldl max b0)).map (fun b : ℤ =>
      let vals := buckets.filterMap (fun p => if p.1 = b then some p.2 else none)
      ((b : ℚ) * f, if vals.isEmpty then none else some (qmean vals)))

/-- Nearest grid row of the right table within tolerance of instant t
(pd.merge_asof with direction nearest). Scanning left to right and
replacing only on a strictly smaller distance keeps the earliest of two
equidistant candidates, matching the pandas tie toward the backward
match. -/
def nearestWithin (tol : ℚ) (t : ℚ) : List (ℚ × Option ℚ) → Option (ℚ × Option ℚ)
  | [] => none
  | g :: gs =>
    let rest := nearestWithin tol t gs
    if |g.1 - t| ≤ tol then
      match rest with
      | none => some g
      | some h => if |h.1 - t| < |g.1 - t| then some h else some g
    else rest

/-- Aligned row: shared instant, value from series 1, value from
series 2; none models NaN. -/
abbrev Row3 : Type := ℚ × Option ℚ × Option ℚ

/-- Merge step of align_metrics before dropna: keep every left grid row
and attach the value of the nearest right grid instant within tolerance
(none when no right instant is within tolerance). -/
def mergeNearest (tol : ℚ) (g1 g2 : List (ℚ × Option ℚ)) : List Row3 :=
  g1.map (fun r => (r.1, r.2, (nearestWithin tol r.1 g2).bind (fun h => h.2)))

/-- Cadence used by align_metrics: the supplied frequency, or the one
infer_freq derives from the two datetime columns. -/
def alignCadence (df1 df2 : List (ℚ × ℚ)) (freq : Option ℚ) : ℚ :=
  match freq with
  | some f => f
  | none => freqSeconds (infer_freq (df1.map (fun r => r.1)) (df2.map (fun r => r.1)))

/-- Tolerance used by align_metrics: the supplied tolerance, or twice
the cadence. -/
def alignTol (fsec : ℚ) (tol : Option ℚ) : ℚ :=
  match tol with
  | some t0 => t0
  | none => 2 * fsec

/-- Embeds align_metrics(df1, df2, freq, tol): resample both series onto
a common cadence (supplied, or inferred by infer_freq), nearest-join the
two grids within the tolerance (supplied, or twice the cadence), then
drop every row where either value is undefined. -/
def align_metrics (df1 df2 : List (ℚ × ℚ)) (freq : Option ℚ) (tol : Option ℚ) :
    List Row3 :=
  if df1.isEmpty || df2.isEmpty then []
  else
    (mergeNearest (alignTol (alignCadence df1 df2 freq) tol)
      (resampleMean (alignCadence df1 df2 freq) df1)
      (resampleMean (alignCadence df1 df2 freq) df2)).filter
      (fun r => r.2.1.isSome && r.2.2.isSome)

/-- Decidable equality for Except results, so that concrete runs of the
fallible operations can be checked by decide. -/
instance {ε α : Type} [DecidableEq ε] [DecidableEq α] : DecidableEq (Except ε α) := fun a b =>
  match a, b with
  | .error x, .error y =>
    if h : x = y then .isTrue (by rw [h]) else .isFalse (by simp [h])
  | .error _, .ok _ => .isFalse (by simp)
  | .ok _, .error _ => .isFalse (by simp)
  | .ok x, .ok y =>
    if h : x = y then .isTrue (by rw [h]) else .isFalse (by simp [h])

/-! ### correlations.py -/

/-- Pearson pair (N, D) of two equally long columns, encoding the
coefficient r = N / sqrt D with N = sum (x-xbar)*(y-ybar) and
D = (sum (x-xbar)^2) * (sum (y-ybar)^2). -/
def pearsonND (xs ys : List ℚ) : ℚ × ℚ :=
  let cx := xs.map (fun x => x - qmean xs)
  let cy := ys.map (fun y => y - qmean ys)
  (qsum ((cx.zip cy).map (fun p => p.1 * p.2)),
   qsum (cx.map (fun x => x * x)) * qsum (cy.map (fun y => y * y)))

/-- Pearson coefficient of a list of paired samples, as an (N, D) pair;
none models the NaN scipy and pandas return when either column has zero
variance or fewer than 2 rows are available. -/
def pearsonOpt (ps : List (ℚ × ℚ)) : Option (ℚ × ℚ) :=
  if ps.length < 2 then none
  else
    let nd := pearsonND (ps.map (fun p => p.1)) (ps.map (fun p => p.2))
    if nd.2 = 0 then none else some nd

/-- Average rank of x within l (1-based, ties averaged), the rank
transform scipy.stats.spearmanr applies before Pearson. -/
def rankOf (l : List ℚ) (x : ℚ) : ℚ :=
  (l.countP (fun y => decide (y < x)) : ℚ) + ((l.count x : ℚ) + 1) / 2

/-- Rank transform of a column. -/
def ranks (l : List ℚ) : List ℚ := l.map (rankOf l)

/-- Sample variance with ddof = 1, the square of pandas Series.std();
none models the NaN std of a series with fewer than 2 entries. -/
def sVar (s : List ℚ) : Option ℚ :=
  if s.length < 2 then none
  else some (qsum (s.map (fun x => (x - qmean s) * (x - qmean s))) / ((s.length : ℚ) - 1))

/-- Embeds normalize_series(s). The result (nums, scale) denotes the
column with i-th real value nums[i] / sqrt scale, so that dividing by the
(possibly irrational) standard deviation never leaves the rationals:
if s.std() == 0 the column is returned unchanged, encoded as
(s.map some, 1); otherwise each entry is centered and the sample variance
is recorded as the squared denominator. A length-deficient column has NaN
std, fails the zero test, and is divided by NaN, yielding an all-NaN
column, encoded with none entries. -/
def normalize_series (s : List ℚ) : List (Option ℚ) × ℚ :=
  match sVar s with
  | none => (s.map (fun _ => none), 1)
  | some v =>
    if v = 0 then (s.map some, 1)
    else (s.map (fun x => some (x - qmean s)), v)

/-- Valid paired rows of the two value columns: df[["v1","v2"]].dropna(). -/
def cleanPairs (rows : List (Option ℚ × Option ℚ)) : List (ℚ × ℚ) :=
  rows.filterMap (fun r =>
    match r with
    | (some a, some b) => some (a, b)
    | _ => none)

/-- Correlation record of compute_correlations. Pearson and Spearman
coefficients are (N, D) pairs (r = N / sqrt D), none modelling NaN;
p-values are analytic functions of (r, n) computed by scipy and are
determined by these fields, so they are not separately represented. -/
structure CorrResult where
  pearson : Option (ℚ × ℚ)
  spearman : Option (ℚ × ℚ)
  n : ℕ
deriving Repr, DecidableEq

/-- Embeds compute_correlations(df, use_norm): drop rows with either
value missing; on an empty remainder return the explicit undefined
result (None); otherwise optionally z-score both columns, then call
scipy pearsonr, which raises ValueError when fewer than 2 paired rows
remain. The normalized columns are all defined whenever that call is
reached, so dropping the unreachable none entries with reduceOption is
exact. -/
def compute_correlations (rows : List (Option ℚ × Option ℚ)) (use_norm : Bool) :
    Except String (Option CorrResult) :=
  let clean := cleanPairs rows
  if clean.isEmpty then .ok none
  else
    let v1 := clean.map (fun p => p.1)
    let v2 := clean.map (fun p => p.2)
    let w1 := if use_norm then (normalize_series v1).1 else v1.map some
    let w2 := if use_norm then (normalize_series v2).1 else v2.map some
    if clean.length < 2 then .error "x and y must have length at least 2."
    else
      let x := w1.reduceOption
      let y := w2.reduceOption
      .ok (some { pearson := pearsonOpt (x.zip y)
                , spearman := pearsonOpt ((ranks x).zip (ranks y))
                , n := clean.length })

/-! ### lag_correlation -/

/-- Integer range from a to b inclusive: range(-max_lag, max_lag + 1). -/
def intRange (a b : ℤ) : List ℤ :=
  (List.range (b - a + 1).toNat).map (fun i : ℕ => a + (i : ℤ))

/-- Valid paired positions after shifting the second column by lag grid
steps: for lag >= 0 the shifted column holds lag leading NaN slots, so
the valid pairs are (v1[i], v2[i - lag]) for i >= lag; for lag < 0 the
NaN slots trail, pairing (v1[i], v2[i - lag]) for i < n + lag. -/
def shiftedPairs (v1 v2 : List ℚ) (lag : ℤ) : List (ℚ × ℚ) :=
  if 0 ≤ lag then (v1.drop lag.toNat).zip v2
  else v1.zip (v2.drop (-lag).toNat)

/-- Dropna over the three-column frame of lag_correlation (the datetime
column is always present). -/
def cleanRows3 (rows : List Row3) : List (ℚ × ℚ × ℚ) :=
  rows.filterMap (fun r =>
    match r with
    | (t, some a, some b) => some (t, a, b)
    | _ => none)

/-- Pearson pair recorded for one lag: the coefficient over the valid
overlap, none when it is NaN (zero variance within the overlap; the
overlap is at least 100 >= 2 wherever this is consulted, so scipy never
raises here). -/
def lagND (v1 v2 : List ℚ) (lag : ℤ) : Option (ℚ × ℚ) :=
  let ps := shiftedPairs v1 v2 lag
  let nd := pearsonND (ps.map (fun p => p.1)) (ps.map (fun p => p.2))
  if nd.2 = 0 then none else some nd

/-- Per-lag table of lag_correlation: for every lag in the symmetric
scan, the Pearson pair over the valid overlap, skipping (continue) any
lag whose overlap holds fewer than 100 paired samples. -/
def lagTable (v1 v2 : List ℚ) (max_lag : ℤ) : List (ℤ × Option (ℚ × ℚ)) :=
  (intRange (-max_lag) max_lag).filterMap (fun lag =>
    if (shiftedPairs v1 v2 lag).length < 100 then none
    else some (lag, lagND v1 v2 lag))

/-- Per-lag table a lag-correlation run scans, assembled from the
cleaned, time-sorted value columns exactly as the Python loop reads
them off the sorted frame. -/
def lagTableOf (rows : List Row3) (max_lag : ℤ) : List (ℤ × Option (ℚ × ℚ)) :=
  lagTable ((sortOn (fun r => r.1) (cleanRows3 rows)).map (fun r => r.2.1))
    ((sortOn (fun r => r.1) (cleanRows3 rows)).map (fun r => r.2.2)) max_lag

/-- Squared magnitude of a Pearson pair: |r|^2 = N^2 / D, the quantity
lags_df["corr"].abs() orders (D > 0 wherever a coefficient is defined,
and the square is monotone in |r|). -/
def keyQ (nd : ℚ × ℚ) : ℚ := nd.1 * nd.1 / nd.2

/-- Scan the tail of the lag table keeping the current best entry,
replacing it only on a strictly larger |r| and skipping NaN entries:
the semantics of Series.idxmax (first occurrence of the maximum). -/
def pickFrom (cur : ℤ × (ℚ × ℚ)) : List (ℤ × Option (ℚ × ℚ)) → ℤ × (ℚ × ℚ)
  | [] => cur
  | (_, none) :: rest => pickFrom cur rest
  | (l, some nd) :: rest =>
    if keyQ cur.2 < keyQ nd then pickFrom (l, nd) rest else pickFrom cur rest

/-- First defined entry of the lag table becomes the initial champion of
the idxmax scan; none when every coefficient is NaN (pandas raises
there, handled by the caller). -/
def pickBest : List (ℤ × Option (ℚ × ℚ)) → Option (ℤ × (ℚ × ℚ))
  | [] => none
  | (_, none) :: rest => pickBest rest
  | (l, some nd) :: rest => some (pickFrom (l, nd) rest)

/-- Lag result: the chosen lag, its Pearson pair, and the complete
per-lag table used to pick it (all_lags). The p-value of the best lag is
determined by its coefficient and overlap size and is not separately
represented. -/
structure LagResult where
  bestLag : ℤ
  bestND : ℚ × ℚ
  allLags : List (ℤ × Option (ℚ × ℚ))
deriving Repr, DecidableEq

/-- Embeds lag_correlation(df, max_lag) at an explicit max_lag: dropna,
return None when fewer than 2 * max_lag rows remain (or none at all),
sort by datetime, build the per-lag table, return None when no lag met
the minimum overlap, and otherwise pick the first lag of maximal
absolute correlation. An all-NaN table makes pandas idxmax fail, which
surfaces as an error. -/
def lag_correlationWith (rows : List Row3) (max_lag : ℤ) :
    Except String (Option LagResult) :=
  if (cleanRows3 rows).isEmpty ||
      decide (((cleanRows3 rows).length : ℤ) < max_lag * 2) then .ok none
  else if (lagTableOf rows max_lag).isEmpty then .ok none
  else
    match pickBest (lagTableOf rows max_lag) with
    | some best =>
      .ok (some { bestLag := best.1, bestND := best.2
                , allLags := lagTableOf rows max_lag })
    | none => .error "attempt to get argmax of an empty sequence"

/-- Default max_lag of lag_correlation(df, max_lag=10). -/
def lag_correlation_default_max_lag : ℤ := 10

/-- Embeds lag_correlation(df) with its default lag range. -/
def lag_correlation (rows : List Row3) : Except String (Option LagResult) :=
  lag_correlationWith rows lag_correlation_default_max_lag

/-! ### rolling_stats.py -/

/-- Output row of rolling_corr: the input columns plus the trailing
moving averages and the trailing-window correlation (an (N, D) Pearson
pair, none modelling NaN). -/
structure RollRow where
  t : ℚ
  v1 : Option ℚ
  v2 : Option ℚ
  v1Roll : Option ℚ
  v2Roll : Option ℚ
  rollCorr : Option (ℚ × ℚ)
deriving Repr, DecidableEq

/-- Rows of the trailing window [max(0, i-window+1), i] of a time-sorted
frame (out.iloc[start:end] with start = max(0, i-window+1), end = i+1;
natural subtraction realizes the max with 0). -/
def windowRows (rows : List Row3) (window i : ℕ) : List Row3 :=
  (rows.drop (i + 1 - window)).take (i + 1 - (i + 1 - window))

/-- Jointly defined value pairs of a window
(window_data[["v1","v2"]].dropna()). -/
def bothVals (rows : List Row3) : List (ℚ × ℚ) :=
  rows.filterMap (fun r =>
    match r with
    | (_, some a, some b) => some (a, b)
    | _ => none)

/-- Trailing mean of one column over a valid window: the value side of
pandas rolling(window, min_periods).mean(), which averages the defined
entries and yields NaN when fewer than min_periods of them exist. The
min_periods <= window validation pandas performs when the Rolling object
is built is handled by the caller (rolling_corr) before this applies. -/
def rollMean (vals : List (Option ℚ)) (mp : ℕ) : Option ℚ :=
  let c := vals.reduceOption
  if c.length < mp then none else some (qmean c)

/-- Default min_periods of rolling_corr: max(3, window // 3). -/
def rolling_corr_default_min_periods (window : ℕ) : ℕ := max 3 (window / 3)

/-- Effective min_periods of a rolling_corr call: the supplied value, or
the default. -/
def rollingMinPeriods (window : ℕ) (min_periods : Option ℕ) : ℕ :=
  match min_periods with
  | some m => m
  | none => rolling_corr_default_min_periods window

/-- Row computation of rolling_corr after pandas validation has passed:
for each row i of the time-sorted frame, take the trailing window,
select rows with both values defined, and record a Pearson pair when at
least mp such rows exist (pandas .corr of a window with zero variance or
fewer than 2 rows is NaN, which pearsonOpt already encodes as none); the
trailing moving averages of each column are carried alongside. -/
def rollingRows (rows : List Row3) (window mp : ℕ) : List RollRow :=
  (sortOn (fun r => r.1) rows).enum.map (fun p =>
    let i := p.1
    let r := p.2
    let win := windowRows (sortOn (fun r : Row3 => r.1) rows) window i
    let both := bothVals win
    { t := r.1
    , v1 := r.2.1
    , v2 := r.2.2
    , v1Roll := rollMean (win.map (fun w => w.2.1)) mp
    , v2Roll := rollMean (win.map (fun w => w.2.2)) mp
    , rollCorr := if mp ≤ both.length then pearsonOpt both else none })

/-- Embeds rolling_corr(df, window, min_periods): an empty frame returns
an empty frame before any rolling object is built; otherwise pandas
validates the Rolling parameters and raises
ValueError("min_periods N must be <= window M") whenever the effective
min_periods exceeds the window (with the default max(3, window // 3)
this fires for every window below 3); only then are the trailing
windows evaluated. -/
def rolling_corr (rows : List Row3) (window : ℕ) (min_periods : Option ℕ) :
    Except String (List RollRow) :=
  if rows.isEmpty then .ok []
  else if window < rollingMinPeriods window min_periods then
    .error "min_periods must be <= window"
  else .ok (rollingRows rows window (rollingMinPeriods window min_periods))

/-- Rolling correlation value at row i, as an observation helper: none
when the run raised or i is out of range, some c with the correlation
cell c otherwise. -/
def rollCorrAt (rows : List Row3) (window : ℕ) (min_periods : Option ℕ)
    (i : ℕ) : Option (Option (ℚ × ℚ)) :=
  match rolling_corr rows window min_periods with
  | .ok l => (l.get? i).map (fun r => r.rollCorr)
  | .error _ => none

/-! ### Observation helpers for concrete runs -/

/-- Lag chosen by a lag-correlation run, none when the run was undefined
or failed. -/
def bestLagOf (e : Except String (Option LagResult)) : Option ℤ :=
  match e with
  | .ok (some r) => some r.bestLag
  | _ => none

/-- Pearson pair recorded for one lag of the scan, none when the lag was
skipped or its coefficient is NaN. -/
def ndAt (rows : List Row3) (max_lag lag : ℤ) : Option (ℚ × ℚ) :=
  ((lagTableOf rows max_lag).lookup lag).bind (fun o => o)

/-! ### General lemmas about the helpers -/

theorem qsum_const (l : List ℚ) (c : ℚ) (h : ∀ x ∈ l, x = c) :
    qsum l = l.length * c := by
  induction l with
  | nil => simp [qsum]
  | cons a as ih =>
    have ha : a = c := h a (List.mem_cons_self a as)
    have : qsum as = as.length * c := ih (fun x hx => h x (List.mem_cons_of_mem a hx))
    simp only [qsum, List.foldr_cons, List.length_cons] at *
    rw [this, ha]
    push_cast
    ring

theorem adjPairs_length {α : Type} (l : List α) :
    (adjPairs l).length = l.length - 1 := by
  cases l with
  | nil => rfl
  | cons a as => simp [adjPairs]

theorem filterMap_eq_map_of {α β : Type} (l : List α) (f : α → Option β)
    (g : α → β) (h : ∀ x ∈ l, f x = some (g x)) : l.filterMap f = l.map g := by
  induction l with
  | nil => rfl
  | cons a as ih =>
    rw [List.filterMap_cons, h a (List.mem_cons_self a as), List.map_cons,
      ih (fun x hx => h x (List.mem_cons_of_mem a hx))]

theorem clamp_eq_max (x : ℚ) : (if x < 0 then 0 else x) = max 0 x := by
  rcases lt_or_le x 0 with h | h
  · rw [if_pos h, max_eq_left h.le]
  · rw [if_neg (not_lt.mpr h), max_eq_right h]

theorem pyMinQ_none_right (x : Option ℚ) : pyMinQ x none = x := by
  cases x <;> rfl

/-! ### Claim C9: zero-variance guard of normalize_series -/

/-- Claim C9: normalization of a column whose standard deviation is
exactly zero — in particular any constant column with at least two
entries, such as [5,5,5,5,5] — returns the column unchanged: the
divide-by-zero branch is never taken, and the function is total, so no
error is raised. The unchanged column is encoded as (s.map some, 1),
meaning every entry is its own value divided by sqrt 1. -/
theorem claim_C9_theorem (s : List ℚ) (c : ℚ) (h2 : 2 ≤ s.length)
    (hc : ∀ x ∈ s, x = c) :
    sVar s = some 0 ∧ normalize_series s = (s.map some, 1) := by
  have hn : (s.length : ℚ) ≠ 0 := by
    have : 0 < s.length := by omega
    exact_mod_cast this.ne'
  have hmean : qmean s = c := by
    rw [qmean, qsum_const s c hc, mul_comm, mul_div_assoc, div_self hn, mul_one]
  have hzero : ∀ y ∈ s.map (fun x => (x - qmean s) * (x - qmean s)), y = 0 := by
    intro y hy
    rcases List.mem_map.mp hy with ⟨x, hx, rfl⟩
    rw [hmean, hc x hx, sub_self, mul_zero]
  have hsq : qsum (s.map (fun x => (x - qmean s) * (x - qmean s))) = 0 := by
    rw [qsum_const _ 0 hzero, mul_zero]
  have hvar : sVar s = some 0 := by
    rw [sVar, if_neg (by omega), hsq, zero_div]
  refine ⟨hvar, ?_⟩
  rw [normalize_series, hvar]
  simp

/-- Claim C9 witness: normalizing the constant series [5,5,5,5,5]
returns it unchanged. -/
theorem claim_C9_witness :
    normalize_series [5, 5, 5, 5, 5] = ([5, 5, 5, 5, 5].map some, 1) :=
  (claim_C9_theorem [5, 5, 5, 5, 5] 5 (by decide) (by decide)).2

/-! ### Claim C1: undefined result of compute_correlations -/

/-- Claim C1 counterexample: with exactly one paired row,
compute_correlations does not return the undefined marker; scipy pearsonr
requires at least 2 observations, so the call fails. -/
theorem claim_C1_counterexample :
    compute_correlations [(some 1, some 2)] false =
      .error "x and y must have length at least 2." := by
  with_unfolding_all decide

/-- Claim C1 (amended): compute_correlations returns the explicit
undefined result exactly when the paired set left after dropping rows
with either value undefined is empty; when exactly one paired row
remains, the scipy length error propagates instead of an undefined
result. -/
theorem claim_C1_theorem (rows : List (Option ℚ × Option ℚ)) (u : Bool) :
    (compute_correlations rows u = .ok none ↔ cleanPairs rows = []) ∧
    ((cleanPairs rows).length = 1 →
      compute_correlations rows u = .error "x and y must have length at least 2.") := by
  by_cases h : cleanPairs rows = []
  · constructor
    · simp [compute_correlations, h]
    · intro h1
      rw [h] at h1
      simp at h1
  · have hie : (cleanPairs rows).isEmpty = false := by
      simpa [List.isEmpty_iff] using h
    by_cases hl : (cleanPairs rows).length < 2
    · constructor
      · simp only [compute_correlations, hie, Bool.false_eq_true, if_false, if_pos hl]
        constructor
        · intro heq; exact absurd heq (by simp)
        · intro heq; exact absurd heq h
      · intro _
        simp only [compute_correlations, hie, Bool.false_eq_true, if_false, if_pos hl]
    · constructor
      · simp only [compute_correlations, hie, Bool.false_eq_true, if_false, if_neg hl]
        constructor
        · intro heq; exact absurd heq (by simp)
        · intro heq; exact absurd heq h
      · intro h1; omega

/-- Claim C1 witness: on an input with no valid paired rows the result
is the explicit undefined marker. -/
theorem claim_C1_witness : compute_correlations [] false = .ok none :=
  (claim_C1_theorem [] false).1.mpr rfl

/-! ### Claim C3: short series and the cumulative classifier -/

/-- Claim C3 counterexample: the name check of _is_cumulative precedes
the length guard, so the empty series named x_total is classified
cumulative, contradicting the claim that a series with fewer than 2
samples is never cumulative regardless of its name. -/
theorem claim_C3_counterexample : is_cumulative [] "x_total" = true := by
  with_unfolding_all decide

/-- Claim C3 (amended): a series with fewer than 2 samples is never
classified cumulative when its name carries no cumulative marker (with a
marker name the classifier reports cumulative regardless of length), and
classify-and-convert returns the input unchanged for any series with
fewer than 2 samples, regardless of its name. -/
theorem claim_C3_theorem (rows : List (ℚ × ℚ)) (name : String)
    (hlen : rows.length < 2) :
    (nameHasMarker name = false → is_cumulative rows name = false) ∧
    to_rate rows name = rows := by
  constructor
  · intro hm
    rw [is_cumulative, hm, if_neg (by simp), if_pos hlen]
  · rw [to_rate, if_pos hlen]

/-- Claim C3 witness: a one-point series named with the cumulative
marker passes through to_rate unchanged. -/
theorem claim_C3_witness : to_rate [(0, 5)] "x_total" = [(0, 5)] :=
  (claim_C3_theorem [(0, 5)] "x_total" (by decide)).2

/-! ### Claim C10: cadence inference with a one-sample series -/

/-- Claim C10 counterexample: when only the second series has exactly
one sample, its undefined median gap is discarded by the asymmetry of
Python min (nan < x is false), and the first series quantized cadence is
returned instead of the claimed 1-minute bucket. -/
theorem claim_C10_counterexample :
    infer_freq [0, 1] [0] = "5s" ∧ ("5s" : String) ≠ "1min" := by
  with_unfolding_all decide

/-- Claim C10 (amended): with both inputs non-empty, an undefined median
gap of the FIRST series (exactly one sample) survives Python min and
fails every quantization comparison, yielding the 1-minute bucket; when
only the second series has exactly one sample, min keeps the first
series median gap and the result is its quantized cadence. -/
theorem claim_C10_theorem (ts1 ts2 : List ℚ) :
    (ts1.length = 1 → ts2 ≠ [] → infer_freq ts1 ts2 = "1min") ∧
    (ts1 ≠ [] → ts2.length = 1 → infer_freq ts1 ts2 = quantizeFreq (medianGapQ ts1)) := by
  constructor
  · intro h1 h2
    rcases List.length_eq_one.mp h1 with ⟨a, rfl⟩
    have hgap : medianGapQ [a] = none := rfl
    rw [infer_freq, if_neg (by simpa [List.isEmpty_iff] using h2), hgap]
    rfl
  · intro h1 h2
    rcases List.length_eq_one.mp h2 with ⟨b, rfl⟩
    have hgap : medianGapQ [b] = none := rfl
    rw [infer_freq, if_neg (by simpa [List.isEmpty_iff] using h1), hgap,
      pyMinQ_none_right]

/-- Claim C10 witness: a single-sample first series against a two-sample
second series infers the 1-minute cadence. -/
theorem claim_C10_witness : infer_freq [0] [0, 1] = "1min" :=
  (claim_C10_theorem [0] [0, 1]).1 rfl (by simp)

/-! ### Claim C7: default lag range -/

/-- Claim C7 counterexample: the default lag range of lag_correlation is
10 grid steps, not the claimed 20; the symmetric scans they induce
differ. -/
theorem claim_C7_counterexample :
    lag_correlation_default_max_lag = 10 ∧
    lag_correlation_default_max_lag ≠ 20 ∧
    intRange (-lag_correlation_default_max_lag) lag_correlation_default_max_lag ≠
      intRange (-20) 20 := by
  refine ⟨rfl, by decide, by decide⟩

/-- Claim C7 (amended): when the caller does not override the lag range,
lag_correlation sweeps plus-minus 10 grid steps (its Python default
max_lag=10); the CLI caller run_pair_analysis passes 20 explicitly. -/
theorem claim_C7_theorem :
    lag_correlation_default_max_lag = 10 ∧
    ∀ rows, lag_correlation rows = lag_correlationWith rows 10 :=
  ⟨rfl, fun _ => rfl⟩

/-! ### Claim C2: behavioral cumulative classification -/

/-- Claim C2 counterexample: the two-sample series [(0,0),(1,1)] has its
single successive difference non-negative, yet the classifier reports
non-cumulative, because the code divides the count of non-negative
differences by the sample count n (pandas diff keeps a leading NaN
entry), giving 1/2, which does not exceed 0.95. -/
theorem claim_C2_counterexample :
    (∀ d ∈ valueDiffs [((0 : ℚ), (0 : ℚ)), (1, 1)], 0 ≤ d) ∧
    is_cumulative [((0 : ℚ), (0 : ℚ)), (1, 1)] "m" = false := by
  with_unfolding_all decide

/-- Claim C2 (amended): for a series of n >= 2 samples whose name
contains no cumulative marker, the classifier reports cumulative exactly
when the count of non-negative successive differences of the time-sorted
values exceeds 95 percent of the sample count n (the leading undefined
difference is counted in the denominator); consequently a series all of
whose n-1 successive differences are non-negative is classified
cumulative exactly when n >= 21. -/
theorem claim_C2_theorem (rows : List (ℚ × ℚ)) (name : String)
    (hm : nameHasMarker name = false) (h2 : 2 ≤ rows.length) :
    (is_cumulative rows name = true ↔ 19 * rows.length < 20 * nonNegDiffCount rows) ∧
    ((∀ d ∈ valueDiffs rows, 0 ≤ d) →
      (is_cumulative rows name = true ↔ 21 ≤ rows.length)) := by
  have hn : (0 : ℚ) < (rows.length : ℚ) := by
    have : 0 < rows.length := by omega
    exact_mod_cast this
  have key : is_cumulative rows name = true ↔
      19 * rows.length < 20 * nonNegDiffCount rows := by
    rw [is_cumulative, hm, if_neg (by simp), if_neg (by omega),
      decide_eq_true_eq, div_lt_div_iff₀ (by norm_num) hn,
      mul_comm ((nonNegDiffCount rows : ℚ)) 20]
    exact_mod_cast Iff.rfl
  refine ⟨key, fun hd => ?_⟩
  have hcount : nonNegDiffCount rows = (valueDiffs rows).length := by
    rw [nonNegDiffCount]
    exact List.countP_eq_length.mpr (fun d hdm => decide_eq_true (hd d hdm))
  have hdl : (valueDiffs rows).length = rows.length - 1 := by
    rw [valueDiffs, List.length_map, adjPairs_length, sortOn_length]
  rw [key, hcount, hdl]
  omega

/-- Claim C2 witness: a strictly increasing series of 21 samples with a
neutral name is classified cumulative. -/
theorem claim_C2_witness :
    is_cumulative ((List.range 21).map (fun i => ((i : ℚ), (i : ℚ)))) "m" = true :=
  ((claim_C2_theorem ((List.range 21).map (fun i => ((i : ℚ), (i : ℚ)))) "m"
      (by with_unfolding_all decide) (by decide)).2
    (by with_unfolding_all decide)).mpr (by decide)

/-! ### Claim C4: rate conversion of a cumulative series -/

/-- Claim C4: converting a cumulative series of n >= 2 samples at
strictly increasing instants yields exactly n-1 rows; the first row is
dropped, each output row keeps its instant and carries the per-second
difference quotient against the previous row with negative rates clamped
to zero, and consequently every output value is non-negative. -/
theorem claim_C4_theorem (rows : List (ℚ × ℚ)) (name : String)
    (h2 : 2 ≤ rows.length)
    (hinc : rows.Chain' (fun a b => a.1 < b.1))
    (hcum : is_cumulative rows name = true) :
    (to_rate rows name).length = rows.length - 1 ∧
    to_rate rows name = (adjPairs rows).map (fun p =>
      (p.2.1, max 0 ((p.2.2 - p.1.2) / (p.2.1 - p.1.1)))) ∧
    ∀ r ∈ to_rate rows name, 0 ≤ r.2 := by
  have hsort : sortOn (fun r => r.1) rows = rows :=
    sortOn_eq_self _ _ (hinc.imp (fun _ _ hab => le_of_lt hab))
  have hmap : to_rate rows name = (adjPairs rows).map (fun p =>
      (p.2.1, max 0 ((p.2.2 - p.1.2) / (p.2.1 - p.1.1)))) := by
    rw [to_rate, if_neg (by omega), if_neg (not_not_intro hcum), hsort]
    refine filterMap_eq_map_of _ _ _ (fun p hp => ?_)
    have hlt : p.1.1 < p.2.1 := chain'_adjPairs hinc p hp
    have hdt : p.2.1 - p.1.1 ≠ 0 := sub_ne_zero.mpr hlt.ne'
    simp only [if_neg hdt, clamp_eq_max]
  refine ⟨?_, hmap, ?_⟩
  · rw [hmap, List.length_map, adjPairs_length]
  · intro r hr
    rw [hmap] at hr
    rcases List.mem_map.mp hr with ⟨p, _, rfl⟩
    exact le_max_left 0 _

/-- Claim C4 witness: a 5-point cumulative series converts to exactly 4
rate rows. -/
theorem claim_C4_witness :
    (to_rate [(0, 100), (1, 200), (2, 300), (3, 400), (4, 500)] "metric_total").length = 4 :=
  (claim_C4_theorem [(0, 100), (1, 200), (2, 300), (3, 400), (4, 500)] "metric_total"
    (by decide) (by norm_num [List.chain'_cons]) (by with_unfolding_all decide)).1

/-! ### Claim C5: invariants of align_metrics -/

theorem freqSeconds_infer_pos (a b : List ℚ) : 0 < freqSeconds (infer_freq a b) := by
  rw [infer_freq]
  split
  · decide
  · rw [quantizeFreq.eq_def]
    split
    · decide
    · split_ifs <;> decide

theorem bucketGrid_pairwise (bmin bmax : ℤ) :
    (bucketGrid bmin bmax).Pairwise (· < ·) := by
  refine List.Pairwise.map _ ?_ (List.pairwise_lt_range _)
  intro i j hij
  exact add_lt_add_left (Int.ofNat_lt.mpr hij) bmin

theorem resampleMean_pairwise (f : ℚ) (hf : 0 < f) (df : List (ℚ × ℚ)) :
    (resampleMean f df).Pairwise (fun a b => a.1 < b.1) := by
  simp only [resampleMean]
  split
  · exact List.Pairwise.nil
  · refine List.Pairwise.map _ ?_ (bucketGrid_pairwise _ _)
    intro i j hij
    exact mul_lt_mul_of_pos_right (by exact_mod_cast hij) hf

theorem mergeNearest_pairwise (tol : ℚ) (g1 g2 : List (ℚ × Option ℚ))
    (h : g1.Pairwise (fun a b => a.1 < b.1)) :
    (mergeNearest tol g1 g2).Pairwise (fun a b => a.1 < b.1) :=
  h.map _ (fun _ _ hab => hab)

/-- Claim C5: every row of an aligned series has both values present
(rows lacking a match within tolerance, or with either resampled value
undefined, are dropped), the rows are strictly increasing in time (hence
ascending with no duplicate instants), and an empty input on either side
yields an empty result. The cadence hypothesis asks only that an
explicitly supplied cadence be positive; the inferred cadence always
is. -/
theorem claim_C5_theorem (df1 df2 : List (ℚ × ℚ)) (freq tol : Option ℚ)
    (hf : ∀ f, freq = some f → 0 < f) :
    ((df1 = [] ∨ df2 = []) → align_metrics df1 df2 freq tol = []) ∧
    (∀ r ∈ align_metrics df1 df2 freq tol, r.2.1.isSome = true ∧ r.2.2.isSome = true) ∧
    ((align_metrics df1 df2 freq tol).map (fun r => r.1)).Pairwise (· < ·) := by
  have hfpos : 0 < alignCadence df1 df2 freq := by
    cases freq with
    | some f => exact hf f rfl
    | none => exact freqSeconds_infer_pos _ _
  refine ⟨?_, ?_, ?_⟩
  · intro h
    rcases h with h | h <;> simp [align_metrics, h]
  · intro r hr
    rw [align_metrics] at hr
    split at hr
    · simp at hr
    · have hp := List.of_mem_filter hr
      simp only [Bool.and_eq_true] at hp
      exact hp
  · rw [align_metrics]
    split
    · exact List.Pairwise.nil
    · refine List.pairwise_map.mpr ?_
      exact List.Pairwise.sublist (List.filter_sublist _)
        (mergeNearest_pairwise _ _ _ (resampleMean_pairwise _ hfpos df1))

/-- Claim C5 witness: aligning with an empty first input yields the
empty aligned series. -/
theorem claim_C5_witness : align_metrics [] [(0, 5)] none none = [] :=
  (claim_C5_theorem [] [(0, 5)] none none (by intro f hid; cases hid)).1 (Or.inl rfl)

/-! ### Claim C8: rolling correlation semantics and causality -/

/-- Claim C8 counterexample: at window 2 the default min_periods is
max(3, 2 // 3) = 3 > 2, so pandas raises when the Rolling object is
built and no row is ever assigned a rolling correlation — the claim
instead asserts every row of a non-empty frame receives a (here
undefined) rolling value. -/
theorem claim_C8_counterexample :
    rolling_corr [((0 : ℚ), some 1, some 2)] 2 none =
      .error "min_periods must be <= window" ∧
    rollCorrAt [((0 : ℚ), some 1, some 2)] 2 none 0 = none := by
  with_unfolding_all decide

/-- Claim C8 (amended): for min_periods at most window — pandas Rolling
validation raises ValueError for larger values, and the default
max(3, window // 3) exceeds every window below 3 — on a time-sorted
aligned frame min_periods defaults to max(3, window // 3); row i of the
rolling correlation carries the Pearson pair of the jointly defined rows
of the trailing window [max(0, i-window+1), i] when at least min_periods
such rows exist and is undefined otherwise; and the value at row i
depends only on rows with index at most i, so two sorted inputs agreeing
on their first i+1 rows agree on the rolling correlation at row i. -/
theorem claim_C8_theorem (rows : List Row3) (w mp : ℕ)
    (hs : rows.Chain' (fun a b => a.1 ≤ b.1)) :
    (rolling_corr rows w none = rolling_corr rows w (some (max 3 (w / 3)))) ∧
    (rows ≠ [] → w < mp →
      rolling_corr rows w (some mp) = .error "min_periods must be <= window") ∧
    (mp ≤ w → ∀ i, i < rows.length →
      rollCorrAt rows w (some mp) i =
        some (if mp ≤ (bothVals (windowRows rows w i)).length
              then pearsonOpt (bothVals (windowRows rows w i)) else none)) ∧
    (mp ≤ w → ∀ rows' : List Row3, rows'.Chain' (fun a b => a.1 ≤ b.1) →
      ∀ i, i < rows.length → i < rows'.length →
        rows.take (i + 1) = rows'.take (i + 1) →
        rollCorrAt rows w (some mp) i = rollCorrAt rows' w (some mp) i) := by
  have hsort : ∀ (l : List Row3), l.Chain' (fun a b => a.1 ≤ b.1) →
      sortOn (fun r : Row3 => r.1) l = l := fun l hl => sortOn_eq_self _ _ hl
  have key : mp ≤ w → ∀ (l : List Row3), l.Chain' (fun a b => a.1 ≤ b.1) →
      ∀ i, i < l.length →
      rollCorrAt l w (some mp) i =
        some (if mp ≤ (bothVals (windowRows l w i)).length
              then pearsonOpt (bothVals (windowRows l w i)) else none) := by
    intro hmp l hl i hi
    have hne : l.isEmpty = false := by
      cases l with
      | nil => simp at hi
      | cons a as => rfl
    have hget : l.get? i = some (l.get ⟨i, hi⟩) := List.get?_eq_get hi
    rw [rollCorrAt, rolling_corr, hne]
    simp only [Bool.false_eq_true, if_false, rollingMinPeriods,
      if_neg (show ¬ w < mp from not_lt.mpr hmp), rollingRows, hsort l hl,
      List.get?_map, List.get?_enum, hget, Option.map_some']
  refine ⟨rfl, ?_, fun hmp => key hmp rows hs, ?_⟩
  · intro hne hlt
    have h0 : rows.isEmpty = false := by simpa [List.isEmpty_iff] using hne
    rw [rolling_corr, h0]
    simp only [Bool.false_eq_true, if_false, rollingMinPeriods]
    rw [if_pos hlt]
  · intro hmp rows' hs' i hi hi' htake
    have hwin : windowRows rows w i = windowRows rows' w i := by
      have h1 : windowRows rows w i = (rows.take (i + 1)).drop (i + 1 - w) := by
        rw [windowRows, List.drop_take]
      have h2 : windowRows rows' w i = (rows'.take (i + 1)).drop (i + 1 - w) := by
        rw [windowRows, List.drop_take]
      rw [h1, h2, htake]
    rw [key hmp rows hs i hi, key hmp rows' hs' i hi', hwin]

/-- Claim C8 witness: a single-row frame at window 30 with the default
min_periods 10 has its rolling correlation undefined (the window holds
only 1 jointly defined row, below min_periods). -/
theorem claim_C8_witness : rollCorrAt [(0, some 1, some 2)] 30 (some 10) 0 = some none :=
  ((claim_C8_theorem [(0, some 1, some 2)] 30 10 (by simp)).2.2.1 (by decide) 0
    (by decide)).trans (by with_unfolding_all decide)

/-! ### Claim C6: the lag sweep -/

theorem mem_intRange (a b lag : ℤ) : lag ∈ intRange a b ↔ a ≤ lag ∧ lag ≤ b := by
  simp only [intRange, List.mem_map, List.mem_range]
  constructor
  · rintro ⟨i, hi, rfl⟩
    omega
  · intro h
    exact ⟨(lag - a).toNat, by omega, by omega⟩

theorem shiftedPairs_length (v1 v2 : List ℚ) (lag : ℤ)
    (hlen : v2.length = v1.length) :
    (shiftedPairs v1 v2 lag).length = v1.length - lag.natAbs := by
  rw [shiftedPairs]
  split
  · rw [List.length_zip, List.length_drop, hlen]
    omega
  · rw [List.length_zip, List.length_drop, hlen]
    omega

theorem lagTable_mem_iff (v1 v2 : List ℚ) (m lag : ℤ)
    (hlen : v2.length = v1.length) :
    (∃ e ∈ lagTable v1 v2 m, e.1 = lag) ↔
      (-m ≤ lag ∧ lag ≤ m ∧ 100 + lag.natAbs ≤ v1.length) := by
  rw [lagTable]
  constructor
  · rintro ⟨e, he, rfl⟩
    rcases List.mem_filterMap.mp he with ⟨a, ha, hfa⟩
    by_cases hc : (shiftedPairs v1 v2 a).length < 100
    · rw [if_pos hc] at hfa
      cases hfa
    · rw [if_neg hc] at hfa
      cases hfa
      rw [shiftedPairs_length v1 v2 a hlen] at hc
      have hmem := (mem_intRange (-m) m a).mp ha
      refine ⟨hmem.1, hmem.2, ?_⟩
      omega
  · rintro ⟨h1, h2, h3⟩
    refine ⟨(lag, lagND v1 v2 lag),
      List.mem_filterMap.mpr ⟨lag, (mem_intRange (-m) m lag).mpr ⟨h1, h2⟩, ?_⟩, rfl⟩
    rw [if_neg (by rw [shiftedPairs_length v1 v2 lag hlen]; omega)]

theorem pickFrom_spec (l : List (ℤ × Option (ℚ × ℚ))) :
    ∀ cur : ℤ × (ℚ × ℚ),
      (pickFrom cur l = cur ∧
        ∀ e ∈ l, ∀ nd, e.2 = some nd → ¬ (keyQ cur.2 < keyQ nd)) ∨
      (∃ pre post, l = pre ++ ((pickFrom cur l).1, some (pickFrom cur l).2) :: post ∧
        keyQ cur.2 < keyQ (pickFrom cur l).2 ∧
        (∀ e ∈ pre, ∀ nd, e.2 = some nd → keyQ nd < keyQ (pickFrom cur l).2) ∧
        (∀ e ∈ post, ∀ nd, e.2 = some nd →
          ¬ (keyQ (pickFrom cur l).2 < keyQ nd))) := by
  induction l with
  | nil =>
    intro cur
    left
    exact ⟨rfl, by intro e he; simp at he⟩
  | cons a rest ih =>
    intro cur
    obtain ⟨al, ao⟩ := a
    cases ao with
    | none =>
      have hred : pickFrom cur ((al, none) :: rest) = pickFrom cur rest := rfl
      rw [hred]
      rcases ih cur with ⟨hb, hall⟩ | ⟨pre, post, heq, hlt, hpre, hpost⟩
      · left
        refine ⟨hb, ?_⟩
        intro e he nd hend
        rcases List.mem_cons.mp he with rfl | he2
        · cases hend
        · exact hall e he2 nd hend
      · right
        refine ⟨(al, none) :: pre, post, by rw [List.cons_append, ← heq], hlt, ?_, hpost⟩
        intro e he nd hend
        rcases List.mem_cons.mp he with rfl | he2
        · cases hend
        · exact hpre e he2 nd hend
    | some nd =>
      by_cases h : keyQ cur.2 < keyQ nd
      · have hred : pickFrom cur ((al, some nd) :: rest) = pickFrom (al, nd) rest := by
          rw [pickFrom, if_pos h]
        rw [hred]
        rcases ih (al, nd) with ⟨hb, hall⟩ | ⟨pre, post, heq, hlt, hpre, hpost⟩
        · right
          refine ⟨[], rest, ?_, ?_, by intro e he; simp at he, ?_⟩
          · rw [hb, List.nil_append]
          · rw [hb]; exact h
          · intro e he nd2 hend
            have := hall e he nd2 hend
            rw [hb]
            exact this
        · right
          refine ⟨(al, some nd) :: pre, post, by rw [List.cons_append, ← heq],
            h.trans hlt, ?_, hpost⟩
          intro e he nd2 hend
          rcases List.mem_cons.mp he with rfl | he2
          · cases hend; exact hlt
          · exact hpre e he2 nd2 hend
      · have hred : pickFrom cur ((al, some nd) :: rest) = pickFrom cur rest := by
          rw [pickFrom, if_neg h]
        rw [hred]
        rcases ih cur with ⟨hb, hall⟩ | ⟨pre, post, heq, hlt, hpre, hpost⟩
        · left
          refine ⟨hb, ?_⟩
          intro e he nd2 hend
          rcases List.mem_cons.mp he with rfl | he2
          · cases hend; exact h
          · exact hall e he2 nd2 hend
        · right
          refine ⟨(al, some nd) :: pre, post, by rw [List.cons_append, ← heq],
            hlt, ?_, hpost⟩
          intro e he nd2 hend
          rcases List.mem_cons.mp he with rfl | he2
          · cases hend
            exact lt_of_le_of_lt (not_lt.mp h) hlt
          · exact hpre e he2 nd2 hend

theorem pickBest_spec (l : List (ℤ × Option (ℚ × ℚ))) :
    ∀ b, pickBest l = some b →
      ∃ pre post, l = pre ++ (b.1, some b.2) :: post ∧
        (∀ e ∈ pre, ∀ nd, e.2 = some nd → keyQ nd < keyQ b.2) ∧
        (∀ e ∈ post, ∀ nd, e.2 = some nd → ¬ (keyQ b.2 < keyQ nd)) := by
  induction l with
  | nil => intro b hb; cases hb
  | cons a rest ih =>
    intro b hb
    obtain ⟨al, ao⟩ := a
    cases ao with
    | none =>
      rcases ih b hb with ⟨pre, post, heq, hpre, hpost⟩
      refine ⟨(al, none) :: pre, post, by rw [List.cons_append, ← heq], ?_, hpost⟩
      intro e he nd hend
      rcases List.mem_cons.mp he with rfl | he2
      · cases hend
      · exact hpre e he2 nd hend
    | some nd =>
      have hb2 : b = pickFrom (al, nd) rest := by
        have : pickBest ((al, some nd) :: rest) = some (pickFrom (al, nd) rest) := rfl
        rw [this] at hb
        exact (Option.some.inj hb).symm
      rcases pickFrom_spec rest (al, nd) with ⟨hc, hall⟩ | ⟨pre, post, heq, hlt, hpre, hpost⟩
      · refine ⟨[], rest, ?_, by intro e he; simp at he, ?_⟩
        · rw [List.nil_append, hb2, hc]
        · intro e he nd2 hend
          rw [hb2, hc]
          exact hall e he nd2 hend
      · refine ⟨(al, some nd) :: pre, post, ?_, ?_, ?_⟩
        · rw [List.cons_append, hb2, ← heq]
        · intro e he nd2 hend
          rcases List.mem_cons.mp he with rfl | he2
          · cases hend
            rw [hb2]
            exact hlt
          · rw [hb2]
            exact hpre e he2 nd2 hend
        · intro e he nd2 hend
          rw [hb2]
          exact hpost e he nd2 hend

/-- Claim C6 (amended): lag_correlation evaluates the integer lags from
-max_lag to +max_lag inclusive, skipping any lag whose valid overlap
holds fewer than 100 paired samples (the overlap of lag L over n valid
rows has n - |L| pairs); it reports undefined when fewer than
2 * max_lag valid rows exist or when no lag met the minimum overlap; and
the reported best lag is an evaluated lag whose absolute Pearson
correlation no other evaluated lag exceeds, with ties broken by FIRST
OCCURRENCE in the scan order from -max_lag upward (the most negative
tied lag) — not by smallest absolute lag. Absolute coefficients are
compared through keyQ, the square of the correlation. -/
theorem claim_C6_theorem (rows : List Row3) (m : ℤ) :
    ((cleanRows3 rows = [] ∨ ((cleanRows3 rows).length : ℤ) < 2 * m) →
      lag_correlationWith rows m = .ok none) ∧
    (∀ lag : ℤ, (∃ e ∈ lagTableOf rows m, e.1 = lag) ↔
      (-m ≤ lag ∧ lag ≤ m ∧ 100 + lag.natAbs ≤ (cleanRows3 rows).length)) ∧
    (lagTableOf rows m = [] → lag_correlationWith rows m = .ok none) ∧
    (∀ res, lag_correlationWith rows m = .ok (some res) →
      res.allLags = lagTableOf rows m ∧
      ∃ pre post, lagTableOf rows m = pre ++ (res.bestLag, some res.bestND) :: post ∧
        (∀ e ∈ pre, ∀ nd, e.2 = some nd → keyQ nd < keyQ res.bestND) ∧
        (∀ e ∈ post, ∀ nd, e.2 = some nd → ¬ (keyQ res.bestND < keyQ nd))) := by
  refine ⟨?_, ?_, ?_, ?_⟩
  · intro h
    have hcond : ((cleanRows3 rows).isEmpty ||
        decide (((cleanRows3 rows).length : ℤ) < m * 2)) = true := by
      rcases h with h | h
      · rw [h]
        rfl
      · rw [decide_eq_true (show ((cleanRows3 rows).length : ℤ) < m * 2 by linarith),
          Bool.or_true]
    rw [lag_correlationWith, if_pos hcond]
  · intro lag
    have hlen : ((sortOn (fun r : ℚ × ℚ × ℚ => r.1) (cleanRows3 rows)).map
        (fun r => r.2.2)).length =
        ((sortOn (fun r : ℚ × ℚ × ℚ => r.1) (cleanRows3 rows)).map
          (fun r => r.2.1)).length := by
      simp
    rw [lagTableOf, lagTable_mem_iff _ _ _ _ hlen, List.length_map, sortOn_length]
  · intro h
    rw [lag_correlationWith]
    split
    · rfl
    · rw [if_pos (by rw [h]; rfl)]
  · intro res hres
    rw [lag_correlationWith] at hres
    by_cases h1 : ((cleanRows3 rows).isEmpty ||
        decide (((cleanRows3 rows).length : ℤ) < m * 2)) = true
    · rw [if_pos h1] at hres
      exact absurd hres (by simp)
    · rw [if_neg h1] at hres
      by_cases h2 : (lagTableOf rows m).isEmpty = true
      · rw [if_pos h2] at hres
        exact absurd hres (by simp)
      · rw [if_neg h2] at hres
        cases hpb : pickBest (lagTableOf rows m) with
        | none =>
          rw [hpb] at hres
          exact absurd hres (by simp)
        | some best =>
          rw [hpb] at hres
          simp only [Except.ok.injEq, Option.some.injEq] at hres
          subst hres
          exact ⟨rfl, pickBest_spec _ best hpb⟩


/-- Aligned frame with 101 rows at instants 0..100 where the second
column trails the first by exactly one value (v2 = v1 - 1), so every lag
in -1..1 correlates perfectly. -/
def lagTieData : List Row3 :=
  (List.range 101).map (fun i : ℕ => ((i : ℚ), some (i : ℚ), some ((i : ℚ) - 1)))

set_option maxRecDepth 100000 in
/-- Claim C6 counterexample: on lagTieData with max_lag = 1, lags -1, 0
and 1 are all evaluated and tie at the maximal squared correlation, yet
the code reports best lag -1 (first occurrence in the scan order); the
claimed smallest-absolute-lag tie-break would demand lag 0, whose
absolute value is smaller. -/
theorem claim_C6_counterexample :
    bestLagOf (lag_correlationWith lagTieData 1) = some (-1) ∧
    (ndAt lagTieData 1 0).isSome = true ∧
    (ndAt lagTieData 1 0).map keyQ = (ndAt lagTieData 1 (-1)).map keyQ ∧
    (0 : ℤ).natAbs < (-1 : ℤ).natAbs := by
  with_unfolding_all decide

/-- Claim C6 witness: an empty aligned frame reports the undefined lag
result. -/
theorem claim_C6_witness : lag_correlationWith [] 1 = .ok none :=
  (claim_C6_theorem [] 1).1 (Or.inl rfl)

end PromCore
